import Mathlib

/-!
Verification of the repack-logs-mcp log aggregation engine.

This file gives a shallow embedding of the core of the repository:
the Record Store (log-store.ts), the File Tail Reader normalization and
incremental read cycle (log-watcher.ts), the Ingestion Endpoint
(runtime-server.ts) and the Query Facade tool handlers (index.ts), and
proves or refutes the specification claims about them.

Modelling conventions:
- JavaScript strings are Lean `String` (a list of characters); the byte
  size of a file and the length of its content string are identified
  (ASCII assumption).
- JavaScript `Date` parsing is modelled by an explicit valuation
  `dv : String -> Option Int` mapping a timestamp string to its epoch
  value, `none` standing for an Invalid Date (NaN); a comparison
  involving NaN is false, as in JavaScript.
- Absent object fields are `Option.none`; the JavaScript truthiness of a
  string field (absent or empty both falsy) is made explicit at each
  guard, mirroring the source.
-/

/-- Lowercasing as performed by JavaScript toLowerCase on ASCII input:
each character is lowered individually. -/
def jsToLower (s : String) : String := String.mk (s.data.map Char.toLower)

/-- Whether the list `p` is an initial segment of `s` (character match). -/
def isPre (p s : List Char) : Bool :=
  match p, s with
  | [], _ => true
  | _ :: _, [] => false
  | a :: ps, b :: ss => a == b && isPre ps ss

/-- Whether `p` occurs as a contiguous sublist of `s`. -/
def hasSubList (s p : List Char) : Bool :=
  match s with
  | [] => p.isEmpty
  | _ :: t => isPre p s || hasSubList t p

/-- JavaScript String.prototype.includes: `pat` occurs inside `s`. -/
def hasSubstr (s pat : String) : Bool := hasSubList s.data pat.data

/-- The canonical log kinds of types.ts (LogType). -/
inductive LogType where
  | info
  | warn
  | error
  | debug
  | success
  | progress
deriving DecidableEq, Repr

/-- The stored record shape of types.ts (LogEntry). The dynamic extra
fields admitted by the TypeScript index signature are outside the closed
schema and are not used by any verified claim. -/
structure LogEntry where
  timestamp : String
  type : LogType
  issuer : Option String
  message : String
  request : Option String
  file : Option String
  loader : Option String
  stack : Option String
  duration : Option Int
deriving DecidableEq, Repr

/-- The query filter of types.ts (LogFilter), fields in source order. -/
structure LogFilter where
  types : Option (List LogType)
  limit : Option Int
  since : Option String
  issuer : Option String
  search : Option String
deriving DecidableEq, Repr

/-- The suffix of length `n` of a list; JavaScript slice(-n) for n > 0. -/
def takeLast (n : Nat) (l : List α) : List α := l.drop (l.length - n)

/-- LogStore.add: push the entry, then trim to the most recent `maxSize`
records when over capacity. JavaScript slice(-maxSize) with maxSize = 0 is
slice(0), which keeps everything; the inner branch reproduces that quirk. -/
def LogStore.add (maxSize : Nat) (logs : List LogEntry) (entry : LogEntry) :
    List LogEntry :=
  let l := logs ++ [entry]
  if l.length > maxSize then
    (if maxSize = 0 then l else takeLast maxSize l)
  else l

/-- LogStore.addMany: repeated add, preserving input order. -/
def LogStore.addMany (maxSize : Nat) (logs : List LogEntry)
    (entries : List LogEntry) : List LogEntry :=
  entries.foldl (LogStore.add maxSize) logs

/-- Date comparison a >= b as JavaScript performs it on two Date objects
under the valuation `dv`; any Invalid Date (NaN) makes it false. -/
def dateGe (dv : String → Option Int) (a b : String) : Bool :=
  match dv a, dv b with
  | some x, some y => x ≥ y
  | _, _ => false

/-- The types step of LogStore.get: applied only when the filter carries
a non-empty list, because `filter?.types && filter.types.length > 0`
guards it in the source. -/
def typesStage (ts : Option (List LogType)) (r : List LogEntry) :
    List LogEntry :=
  match ts with
  | some tl => if tl.length > 0 then
      r.filter (fun log => tl.contains log.type)
    else r
  | none => r

/-- The since step of LogStore.get: applied only when the filter carries
a non-empty string (`if (filter?.since)` truthiness); each record keeps
its place when its parsed timestamp is >= the parsed since value. -/
def sinceStage (dv : String → Option Int) (since : Option String)
    (r : List LogEntry) : List LogEntry :=
  match since with
  | some s => if s.isEmpty then r
    else r.filter (fun log => dateGe dv log.timestamp s)
  | none => r

/-- The issuer step of LogStore.get: case-insensitive substring match
against the record issuer; a record without issuer never matches
(optional chaining yields undefined, which is falsy). -/
def issuerStage (issuer : Option String) (r : List LogEntry) :
    List LogEntry :=
  match issuer with
  | some iss => if iss.isEmpty then r
    else r.filter (fun log =>
      match log.issuer with
      | some x => hasSubstr (jsToLower x) (jsToLower iss)
      | none => false)
  | none => r

/-- The search step of LogStore.get: case-insensitive substring match
against message, file or request (any of the three suffices). -/
def searchStage (search : Option String) (r : List LogEntry) :
    List LogEntry :=
  match search with
  | some srch => if srch.isEmpty then r
    else r.filter (fun log =>
      hasSubstr (jsToLower log.message) (jsToLower srch)
      || (match log.file with
          | some x => hasSubstr (jsToLower x) (jsToLower srch)
          | none => false)
      || (match log.request with
          | some x => hasSubstr (jsToLower x) (jsToLower srch)
          | none => false))
  | none => r

/-- The limit step of LogStore.get: `filter?.limit && filter.limit > 0`
keeps the most recent `limit` records via slice(-limit). -/
def applyLimit (limit : Option Int) (r : List LogEntry) : List LogEntry :=
  match limit with
  | some n => if n > 0 then takeLast n.toNat r else r
  | none => r

/-- LogStore.get: the optional filters applied in source order (types,
since, issuer, search), then the limit. -/
def LogStore.get (dv : String → Option Int) (logs : List LogEntry)
    (f : LogFilter) : List LogEntry :=
  applyLimit f.limit
    (searchStage f.search
      (issuerStage f.issuer
        (sinceStage dv f.since
          (typesStage f.types logs))))

/-- LogStore.getErrors: get with kinds error and warn and the given limit. -/
def LogStore.getErrors (dv : String → Option Int) (logs : List LogEntry)
    (limit : Option Int) : List LogEntry :=
  LogStore.get dv logs ⟨some [LogType.error, LogType.warn], limit, none, none, none⟩

/-- LogStore.countByType. -/
def LogStore.countByType (logs : List LogEntry) (t : LogType) : Nat :=
  (logs.filter (fun log => log.type == t)).length

/-- LogStore.count. -/
def LogStore.count (logs : List LogEntry) : Nat := logs.length

/-- LogStore.lastTimestamp. -/
def LogStore.lastTimestamp (logs : List LogEntry) : Option String :=
  logs.getLast?.map (fun e => e.timestamp)

/-- The state of a store that started empty and received the given
sequence of add calls in order. -/
def LogStore.runAdds (maxSize : Nat) (entries : List LogEntry) : List LogEntry :=
  LogStore.addMany maxSize [] entries

/-- A concrete log entry used by witnesses and counterexamples. -/
def mkE (msg : String) : LogEntry :=
  ⟨"", LogType.info, none, msg, none, none, none, none, none⟩

-- Claim C2: query semantics of LogStore.get.

/-- The kind-membership predicate of the claim: in effect only when the
types filter is present and non-empty (the source guard). -/
def typesPred (ts : Option (List LogType)) (log : LogEntry) : Bool :=
  match ts with
  | some tl => if tl.length > 0 then tl.contains log.type else true
  | none => true

/-- The timestamp predicate of the claim: in effect only when since is a
non-empty string. -/
def sincePred (dv : String → Option Int) (since : Option String)
    (log : LogEntry) : Bool :=
  match since with
  | some s => if s.isEmpty then true else dateGe dv log.timestamp s
  | none => true

/-- The case-insensitive issuer substring predicate of the claim. -/
def issuerPred (issuer : Option String) (log : LogEntry) : Bool :=
  match issuer with
  | some iss => if iss.isEmpty then true else
      match log.issuer with
      | some x => hasSubstr (jsToLower x) (jsToLower iss)
      | none => false
  | none => true

/-- The case-insensitive text search predicate of the claim, over
message, file and request. -/
def searchPred (search : Option String) (log : LogEntry) : Bool :=
  match search with
  | some srch => if srch.isEmpty then true else
      hasSubstr (jsToLower log.message) (jsToLower srch)
      || (match log.file with
          | some x => hasSubstr (jsToLower x) (jsToLower srch)
          | none => false)
      || (match log.request with
          | some x => hasSubstr (jsToLower x) (jsToLower srch)
          | none => false)
  | none => true

/-- Conjunction of all predicates that are set in the filter. -/
def matchesFilter (dv : String → Option Int) (f : LogFilter)
    (log : LogEntry) : Bool :=
  typesPred f.types log && (sincePred dv f.since log
    && (issuerPred f.issuer log && searchPred f.search log))

-- Claim C3: kind normalization in the File Tail Reader (types.ts,
-- LogWatcher.normalizeType).

/-- LogWatcher.normalizeType: lowercase the input, then classify by
substring checks in the order error, warn, debug, success, progress,
with the exact-match aliases err, trace and done; everything else is
info. -/
def LogWatcher.normalizeType (type : String) : LogType :=
  let normalized := jsToLower type
  if hasSubstr normalized "error" || normalized == "err" then .error
  else if hasSubstr normalized "warn" then .warn
  else if hasSubstr normalized "debug" || normalized == "trace" then .debug
  else if hasSubstr normalized "success" || normalized == "done" then .success
  else if hasSubstr normalized "progress" then .progress
  else .info

/-- The type or level string LogWatcher.parseLine hands to normalizeType:
`parsed.type ?? parsed.level ?? "info"`. -/
def typeFieldOf (type level : Option String) : String :=
  type.getD (level.getD "info")

-- Claim C4: kind classification in the Ingestion Endpoint
-- (runtime-server.ts, RuntimeServer.parseLogType).

/-- RuntimeServer.parseLogType: a switch on the lowercased type string
with exact cases error, warn, warning, debug, success; every other value,
and an absent type, yields info. -/
def RuntimeServer.parseLogType (type : Option String) : LogType :=
  match type with
  | none => .info
  | some s =>
    let t := jsToLower s
    if t == "error" then .error
    else if t == "warn" || t == "warning" then .warn
    else if t == "debug" then .debug
    else if t == "success" then .success
    else .info

-- Claim C5: records without a usable message.

/-- The parsed JSON object LogWatcher.parseLine receives, with the fields
the source consults. Every field of a parsed JSON line is optional. The
dynamic extra fields carried through by the trailing object spread are
outside the closed schema; the spread also re-exposes a raw type string
when one is present, which no verified claim depends on. -/
structure ParsedLine where
  timestamp : Option String
  time : Option String
  type : Option String
  level : Option String
  message : Option String
  msg : Option String
  issuer : Option String
  source : Option String
  name : Option String
  request : Option String
  file : Option String
  filename : Option String
  loader : Option String
  stack : Option String
  duration : Option Int
deriving DecidableEq, Repr

/-- JavaScript falsiness of an optional string field: absent or empty. -/
def jsFalsy (o : Option String) : Bool :=
  match o with
  | none => true
  | some s => s.isEmpty

/-- The nullish coalescing chain a ?? b on optional fields. -/
def orOpt (a b : Option String) : Option String :=
  match a with
  | some x => some x
  | none => b

/-- LogWatcher.parseLine: reject the record when both message and msg are
falsy, otherwise normalize field aliases (time for timestamp, msg for
message, source or name for issuer, filename for file) and the kind, with
`now` standing for the current instant used when no timestamp is given. -/
def LogWatcher.parseLine (now : String) (p : ParsedLine) : Option LogEntry :=
  if jsFalsy p.message && jsFalsy p.msg then none
  else some {
    timestamp := p.timestamp.getD (p.time.getD now),
    type := LogWatcher.normalizeType (typeFieldOf p.type p.level),
    message := p.message.getD (p.msg.getD ""),
    issuer := orOpt p.issuer (orOpt p.source p.name),
    request := p.request,
    file := orOpt p.file p.filename,
    loader := p.loader,
    stack := p.stack,
    duration := p.duration }

/-- The request body of the Ingestion Endpoint single-record route, with
the fields RuntimeServer.handleLog consults. The data payload is opaque
and outside the closed schema. -/
structure RuntimeLogData where
  type : Option String
  message : Option String
  tag : Option String
  file : Option String
  line : Option Int
deriving DecidableEq, Repr

/-- The record RuntimeServer.handleLog builds from a request: the
timestamp is store-assigned (`now`), the kind comes from parseLogType,
a missing message falls back to the JavaScript string coercion of the
data object, which is the text between brackets in [object Object], and
a missing tag falls back to app. -/
def RuntimeServer.entryOf (now : String) (d : RuntimeLogData) : LogEntry :=
  { timestamp := now,
    type := RuntimeServer.parseLogType d.type,
    message := d.message.getD "[object Object]",
    issuer := some (d.tag.getD "app"),
    request := none,
    file := d.file,
    loader := none,
    stack := none,
    duration := none }

/-- RuntimeServer.handleLog: build the entry and add it to the store,
unconditionally. -/
def RuntimeServer.handleLog (now : String) (maxSize : Nat)
    (d : RuntimeLogData) (logs : List LogEntry) : List LogEntry :=
  LogStore.add maxSize logs (RuntimeServer.entryOf now d)

/-- The POST /log route: a body that fails JSON parsing is answered 400
and ignored; a parsed body is handed to handleLog and answered 200.
Result: HTTP status and the store after the request. -/
def RuntimeServer.postLog (now : String) (maxSize : Nat)
    (body : Option RuntimeLogData) (logs : List LogEntry) :
    Nat × List LogEntry :=
  match body with
  | none => (400, logs)
  | some d => (200, RuntimeServer.handleLog now maxSize d logs)

-- Claim C6: the POST /logs batch route.

/-- The logs field of a parsed batch body, as the route inspects it:
an array of records, a string, a number, or absent. Only an array
passes Array.isArray; the optional-chained length is defined for arrays
and strings. -/
inductive LogsField where
  | absent
  | arr (l : List RuntimeLogData)
  | strv (s : String)
  | numv (n : Int)
deriving DecidableEq, Repr

/-- A parsed batch body: an object whose logs field is as above. -/
structure BatchBody where
  logs : LogsField
deriving DecidableEq, Repr

/-- The optional-chained expression data.logs?.length of the source. -/
def LogsField.lengthOpt : LogsField → Option Nat
  | .arr l => some l.length
  | .strv s => some s.length
  | _ => none

/-- The POST /logs route: a body that fails JSON parsing is answered 400;
a parsed body has its records appended in list order when logs is an
array, and is answered 200 with count = logs?.length ?? 0 in every parsed
case. Result: (status, response count) and the store after the request. -/
def RuntimeServer.postLogs (now : String) (maxSize : Nat)
    (body : Option BatchBody) (logs : List LogEntry) :
    (Nat × Nat) × List LogEntry :=
  match body with
  | none => ((400, 0), logs)
  | some b =>
    let store := match b.logs with
      | .arr l => l.foldl
          (fun st d => RuntimeServer.handleLog now maxSize d st) logs
      | _ => logs
    ((200, (LogsField.lengthOpt b.logs).getD 0), store)

-- Claim C7: the runtime-logs operation of the Query Facade (index.ts,
-- get_runtime_logs tool handler).

/-- The reserved build-tool issuer tags of the facade. -/
def buildIssuers : List String := ["webpack", "repack", "watcher"]

/-- A record counts as a build log when its issuer (absent compared as
the empty string, via `log.issuer ?? ""`) is a reserved tag. -/
def isBuildLog (log : LogEntry) : Bool :=
  buildIssuers.contains (log.issuer.getD "")

/-- The arguments of the get_runtime_logs tool, fields in source order. -/
structure RuntimeArgs where
  limit : Option Int
  tag : Option String
  types : Option (List LogType)
  search : Option String
deriving DecidableEq, Repr

/-- The tag step of get_runtime_logs: `if (args.tag)` (skipped for an
empty string), then strict equality between issuer and tag. -/
def rtTagStage (tag : Option String) (r : List LogEntry) : List LogEntry :=
  match tag with
  | some t => if t.isEmpty then r
    else r.filter (fun log => log.issuer == some t)
  | none => r

/-- The types step of get_runtime_logs: `if (args.types)` — any present
array is truthy in JavaScript, including the empty one, so membership is
tested whenever the field is present. -/
def rtTypesStage (ts : Option (List LogType)) (r : List LogEntry) :
    List LogEntry :=
  match ts with
  | some tl => r.filter (fun log => tl.contains log.type)
  | none => r

/-- The search step of get_runtime_logs: case-insensitive substring match
against the message only. -/
def rtSearchStage (search : Option String) (r : List LogEntry) :
    List LogEntry :=
  match search with
  | some s => if s.isEmpty then r
    else r.filter (fun log => hasSubstr (jsToLower log.message) (jsToLower s))
  | none => r

/-- JavaScript slice(0, e): the first e elements for non-negative e, all
but the last -e for negative e. -/
def jsSliceTo (e : Int) (l : List α) : List α :=
  if 0 ≤ e then l.take e.toNat else l.take (l.length - (-e).toNat)

/-- The get_runtime_logs handler: read the most recent 1000 stored
records, drop build logs, apply the tag, types and search filters, then
slice(0, args.limit ?? 50). -/
def getRuntimeLogs (dv : String → Option Int) (logs : List LogEntry)
    (args : RuntimeArgs) : List LogEntry :=
  let allLogs := LogStore.get dv logs ⟨none, some 1000, none, none, none⟩
  let runtimeLogs := allLogs.filter (fun log => !(isBuildLog log))
  jsSliceTo (args.limit.getD 50)
    (rtSearchStage args.search
      (rtTypesStage args.types
        (rtTagStage args.tag runtimeLogs)))

/-- The tag predicate of the runtime-logs filters. -/
def rtTagPred (tag : Option String) (log : LogEntry) : Bool :=
  match tag with
  | some t => if t.isEmpty then true else log.issuer == some t
  | none => true

/-- The types predicate of the runtime-logs filters. -/
def rtTypesPred (ts : Option (List LogType)) (log : LogEntry) : Bool :=
  match ts with
  | some tl => tl.contains log.type
  | none => true

/-- The search predicate of the runtime-logs filters. -/
def rtSearchPred (search : Option String) (log : LogEntry) : Bool :=
  match search with
  | some s => if s.isEmpty then true
    else hasSubstr (jsToLower log.message) (jsToLower s)
  | none => true

/-- Conjunction of the runtime classification and the optional filters. -/
def runtimeMatches (args : RuntimeArgs) (log : LogEntry) : Bool :=
  !(isBuildLog log) && (rtTagPred args.tag log
    && (rtTypesPred args.types log && rtSearchPred args.search log))

-- Claim C8: truncation recovery in the File Tail Reader
-- (log-watcher.ts, LogWatcher.readNewContent).

/-- JavaScript split on the newline character: the list of segments
between newlines, with empty segments preserved. -/
def splitNl : List Char → List (List Char)
  | [] => [[]]
  | c :: t =>
    let r := splitNl t
    if c == '\n' then [] :: r
    else match r with
      | h :: t2 => (c :: h) :: t2
      | [] => [[c]]

/-- The ASCII whitespace characters trimmed by JavaScript trim. -/
def isWsChar (c : Char) : Bool :=
  c.toNat == 32 || c.toNat == 9 || c.toNat == 10
  || c.toNat == 13 || c.toNat == 11 || c.toNat == 12

/-- One incremental read cycle of LogWatcher.readNewContent, as a pure
function of the current file content (none when the file does not exist)
and the last recorded read offset. It returns the new offset and the
non-blank lines handed to parseLine, in file order: a missing file is a
no-op; a size smaller than the offset means truncation or replacement
and resets the offset to 0; no new content is a no-op (the reset offset
persists); otherwise the offset advances to end-of-file and the new
content is split on newlines with blank lines discarded. -/
def LogWatcher.readNewContent (file : Option (List Char))
    (lastPosition : Nat) : Nat × List (List Char) :=
  match file with
  | none => (lastPosition, [])
  | some content =>
    let pos := if content.length < lastPosition then 0 else lastPosition
    let newContent := content.drop pos
    if newContent.length = 0 then (pos, [])
    else (content.length,
      (splitNl newContent).filter (fun line => !(line.all isWsChar)))

-- Claim C9: port fallback in the Ingestion Endpoint and the status
-- snapshot of the Query Facade.

/-- The port-selection loop of RuntimeServer.start: try the current
port; on a port-in-use condition increment and retry. The unbounded
retry recursion of the source is embedded with an explicit fuel; the
returned port is the value of the activePort getter after startup. -/
def RuntimeServer.bindFrom (busy : Nat → Bool) : Nat → Nat → Option Nat
  | _, 0 => none
  | p, fuel + 1 =>
    if busy p then RuntimeServer.bindFrom busy (p + 1) fuel else some p

/-- The status snapshot assembled by the get_status tool handler. -/
structure StatusSnapshot where
  watching : Bool
  filePath : String
  fileExists : Bool
  logCount : Nat
  buildLogCount : Nat
  runtimeLogCount : Nat
  errorCount : Nat
  warningCount : Nat
  lastUpdate : Option String
  runtimeServerPort : Nat
deriving DecidableEq, Repr

/-- The get_status tool handler: partition the most recent 10000 stored
records into build and runtime logs by the reserved issuer tags, and
report counts, watcher state and the active ingestion port. -/
def getStatus (dv : String → Option Int) (watching : Bool)
    (filePath : String) (fileExistsNow : Bool) (logs : List LogEntry)
    (activePort : Nat) : StatusSnapshot :=
  let allLogs := LogStore.get dv logs ⟨none, some 10000, none, none, none⟩
  let buildLogs := allLogs.filter (fun log => isBuildLog log)
  let runtimeLogs := allLogs.filter (fun log => !(isBuildLog log))
  { watching := watching,
    filePath := filePath,
    fileExists := fileExistsNow,
    logCount := LogStore.count logs,
    buildLogCount := buildLogs.length,
    runtimeLogCount := runtimeLogs.length,
    errorCount := LogStore.countByType logs .error,
    warningCount := LogStore.countByType logs .warn,
    lastUpdate := LogStore.lastTimestamp logs,
    runtimeServerPort := activePort }

/-- A concrete busy predicate: exactly port 9090 is taken. -/
def busyW : Nat → Bool := fun n => n == 9090

-- Claim C10: classification of records with an absent issuer.

/-- A runtime record carrying an issuer tag X. -/
def eA : LogEntry := ⟨"", LogType.info, some "X", "a", none, none, none, none, none⟩

/-- A record with an absent issuer field. -/
def eB : LogEntry := ⟨"", LogType.info, none, "b", none, none, none, none, none⟩

/-- A store of 50 tagged runtime records followed by the absent-issuer
record. -/
def store51 : List LogEntry := List.replicate 50 eA ++ [eB]

-- Helper lemmas for bounded retention.

theorem takeLast_all {l : List α} {n : Nat} (h : l.length ≤ n) :
    takeLast n l = l := by
  simp [takeLast, Nat.sub_eq_zero_of_le h]

theorem takeLast_length (n : Nat) (l : List α) :
    (takeLast n l).length = min l.length n := by
  simp [takeLast]
  omega

theorem LogStore.add_takeLast (c : Nat) (hc : 1 ≤ c) (l : List LogEntry)
    (e : LogEntry) :
    LogStore.add c (takeLast c l) e = takeLast c (l ++ [e]) := by
  by_cases h : l.length < c
  · rw [takeLast_all (Nat.le_of_lt h), takeLast_all (by simp; omega)]
    simp [LogStore.add]
    omega
  · push_neg at h
    have hdl : (List.drop (l.length - c) l).length = c := by
      rw [List.length_drop]; omega
    have hc0 : c ≠ 0 := by omega
    simp only [LogStore.add, takeLast, List.length_append, hdl,
      List.length_cons, List.length_nil]
    have hgt : c + (0 + 1) > c := by omega
    simp only [if_pos hgt, if_neg hc0]
    have h1 : c + (0 + 1) - c = 1 := by omega
    have h2 : l.length + (0 + 1) - c = (l.length - c) + 1 := by omega
    rw [h1, h2]
    rw [List.drop_append_of_le_length (by rw [hdl]; omega)]
    rw [List.drop_append_of_le_length (by omega)]
    rw [List.drop_drop]

theorem LogStore.addMany_takeLast (c : Nat) (hc : 1 ≤ c)
    (entries pre : List LogEntry) :
    LogStore.addMany c (takeLast c pre) entries = takeLast c (pre ++ entries) := by
  induction entries generalizing pre with
  | nil => simp [LogStore.addMany]
  | cons e es ih =>
    simp only [LogStore.addMany, List.foldl_cons]
    rw [LogStore.add_takeLast c hc pre e]
    have := ih (pre ++ [e])
    simp only [LogStore.addMany] at this
    rw [this, List.append_assoc]
    rfl

/-- Claim C1. Bounded retention: for every capacity c >= 1 and every
sequence of add calls on a store constructed with capacity c, after each
add (i.e. for every sequence of adds, hence for each of its prefixes) the
store holds exactly the most recent min(number added, c) records, in
arrival order with the oldest evicted first, so its count is
min(number added, c) <= c. -/
theorem C1_bounded_retention (c : Nat) (entries : List LogEntry)
    (hc : 1 ≤ c) :
    LogStore.runAdds c entries = takeLast c entries
    ∧ (LogStore.runAdds c entries).length = min entries.length c
    ∧ (LogStore.runAdds c entries).length ≤ c := by
  have h0 : takeLast c ([] : List LogEntry) = [] := by simp [takeLast]
  have h := LogStore.addMany_takeLast c hc entries []
  rw [h0] at h
  simp only [List.nil_append] at h
  refine ⟨h, ?_, ?_⟩
  · rw [LogStore.runAdds, h, takeLast_length]
  · rw [LogStore.runAdds, h, takeLast_length]; omega

/-- Witness for C1 at capacity 2 and three adds: the store retains the
last two entries, in arrival order. -/
theorem C1_bounded_retention_witness :
    1 ≤ 2
    ∧ (LogStore.runAdds 2 [mkE "a", mkE "b", mkE "c"] = takeLast 2 [mkE "a", mkE "b", mkE "c"]
      ∧ (LogStore.runAdds 2 [mkE "a", mkE "b", mkE "c"]).length = min 3 2
      ∧ (LogStore.runAdds 2 [mkE "a", mkE "b", mkE "c"]).length ≤ 2) :=
  ⟨by decide, C1_bounded_retention 2 [mkE "a", mkE "b", mkE "c"] (by decide)⟩

theorem typesStage_eq (ts : Option (List LogType)) (l : List LogEntry) :
    typesStage ts l = l.filter (fun log => typesPred ts log) := by
  cases ts with
  | none => simp [typesStage, typesPred]
  | some tl =>
    by_cases h : tl.length > 0
    · simp [typesStage, typesPred, h]
    · simp [typesStage, typesPred, h]

theorem sinceStage_eq (dv : String → Option Int) (since : Option String)
    (l : List LogEntry) : sinceStage dv since l = l.filter (fun log => sincePred dv since log) := by
  cases since with
  | none => simp [sinceStage, sincePred]
  | some s =>
    by_cases h : s.isEmpty
    · simp [sinceStage, sincePred, h]
    · simp [sinceStage, sincePred, h]

theorem issuerStage_eq (issuer : Option String) (l : List LogEntry) :
    issuerStage issuer l = l.filter (fun log => issuerPred issuer log) := by
  cases issuer with
  | none => simp [issuerStage, issuerPred]
  | some iss =>
    by_cases h : iss.isEmpty
    · simp [issuerStage, issuerPred, h]
    · simp [issuerStage, issuerPred, h]

theorem searchStage_eq (search : Option String) (l : List LogEntry) :
    searchStage search l = l.filter (fun log => searchPred search log) := by
  cases search with
  | none => simp [searchStage, searchPred]
  | some srch =>
    by_cases h : srch.isEmpty
    · simp [searchStage, searchPred, h]
    · simp [searchStage, searchPred, h]

/-- LogStore.get is the order-preserving filter by the conjunction of the
set predicates, followed by the limit step. -/
theorem LogStore.get_eq_filter (dv : String → Option Int)
    (logs : List LogEntry) (f : LogFilter) :
    LogStore.get dv logs f
      = applyLimit f.limit (logs.filter (fun log => matchesFilter dv f log)) := by
  unfold LogStore.get
  rw [typesStage_eq, sinceStage_eq, issuerStage_eq, searchStage_eq,
    List.filter_filter, List.filter_filter, List.filter_filter]
  congr 1
  apply List.filter_congr
  intro a _
  simp only [matchesFilter]
  ac_rfl

/-- Claim C2. Store query semantics: get(filter) returns exactly the
stored records satisfying all predicates that are set (a predicate is set
when its field is present and non-empty, per the JavaScript truthiness
guards in the source), in arrival order (an order-preserving filter of
the stored sequence); get with the empty filter returns all records; and
a limit set to a positive value is applied after all other predicates,
keeping only the suffix of that length, i.e. the most recent matches. -/
theorem C2_query_semantics (dv : String → Option Int)
    (logs : List LogEntry) (f : LogFilter) :
    LogStore.get dv logs f
      = applyLimit f.limit (logs.filter (fun log => matchesFilter dv f log))
    ∧ LogStore.get dv logs ⟨none, none, none, none, none⟩ = logs
    ∧ ∀ n : Int, 0 < n →
        applyLimit (some n) (logs.filter (fun log => matchesFilter dv f log))
          = takeLast n.toNat (logs.filter (fun log => matchesFilter dv f log)) := by
  refine ⟨LogStore.get_eq_filter dv logs f, rfl, ?_⟩
  intro n hn
  simp [applyLimit, hn]

/-- Witness for C2: the limit conjunct at the concrete bound 1 on a
two-record store with an empty filter. -/
theorem C2_query_semantics_witness :
    (0 : Int) < 1
    ∧ applyLimit (some 1)
        ([mkE "a", mkE "b"].filter
          (fun log => matchesFilter (fun _ => some 0) ⟨none, none, none, none, none⟩ log))
      = takeLast 1
        ([mkE "a", mkE "b"].filter
          (fun log => matchesFilter (fun _ => some 0) ⟨none, none, none, none, none⟩ log)) :=
  ⟨by decide,
    (C2_query_semantics (fun _ => some 0) [mkE "a", mkE "b"]
      ⟨none, none, none, none, none⟩).2.2 1 (by decide)⟩

/-- Claim C3. Kind normalization is total and follows the stated
substring rules: every input yields one of the six canonical kinds; err
maps to error, warning to warn, trace to debug, done to success, and
unknown or absent input to info; classification is case-insensitive
(inputs with the same lowercase form classify identically, and the
uppercase spellings classify like the lowercase ones); the checks run in
the order error, warn, debug, success, progress, so any input containing
the substring error resolves to error, and one containing warn but no
error token resolves to warn. -/
theorem C3_kind_normalization :
    (∀ s : String, LogWatcher.normalizeType s
      ∈ [LogType.info, .warn, .error, .debug, .success, .progress])
    ∧ LogWatcher.normalizeType "err" = .error
    ∧ LogWatcher.normalizeType "ERROR" = .error
    ∧ LogWatcher.normalizeType "warning" = .warn
    ∧ LogWatcher.normalizeType "WARN" = .warn
    ∧ LogWatcher.normalizeType "trace" = .debug
    ∧ LogWatcher.normalizeType "done" = .success
    ∧ LogWatcher.normalizeType "unknown-garbage" = .info
    ∧ LogWatcher.normalizeType "" = .info
    ∧ LogWatcher.normalizeType (typeFieldOf none none) = .info
    ∧ (∀ s t : String, jsToLower s = jsToLower t →
        LogWatcher.normalizeType s = LogWatcher.normalizeType t)
    ∧ (∀ s : String, hasSubstr (jsToLower s) "error" = true →
        LogWatcher.normalizeType s = .error)
    ∧ (∀ s : String, hasSubstr (jsToLower s) "error" = false →
        (jsToLower s == "err") = false →
        hasSubstr (jsToLower s) "warn" = true →
        LogWatcher.normalizeType s = .warn) := by
  refine ⟨?_, by decide, by decide, by decide, by decide, by decide,
    by decide, by decide, by decide, by decide, ?_, ?_, ?_⟩
  · intro s
    cases h : LogWatcher.normalizeType s <;> simp
  · intro s t h
    unfold LogWatcher.normalizeType
    rw [h]
  · intro s h
    unfold LogWatcher.normalizeType
    simp [h]
  · intro s h1 h2 h3
    unfold LogWatcher.normalizeType
    simp [h1, h2, h3]

/-- Witness for C3: an input containing both warn and error tokens
resolves to error (the order conjunct applied at warn-error), and an
input containing warn without an error token resolves to warn. -/
theorem C3_kind_normalization_witness :
    (hasSubstr (jsToLower "warn-error") "error" = true
      ∧ LogWatcher.normalizeType "warn-error" = .error)
    ∧ (hasSubstr (jsToLower "my-warning") "error" = false
      ∧ (jsToLower "my-warning" == "err") = false
      ∧ hasSubstr (jsToLower "my-warning") "warn" = true
      ∧ LogWatcher.normalizeType "my-warning" = .warn) :=
  ⟨⟨by decide, C3_kind_normalization.2.2.2.2.2.2.2.2.2.2.2.1 "warn-error" (by decide)⟩,
    ⟨by decide, by decide, by decide,
      C3_kind_normalization.2.2.2.2.2.2.2.2.2.2.2.2 "my-warning"
        (by decide) (by decide) (by decide)⟩⟩

/-- Counterexample to claim C4 as stated: the Ingestion Endpoint does not
classify by the same rules as the File Tail Reader. On the input err the
endpoint switch has no case and falls through to info, while the reader
maps err to error; the substring and alias rules (trace, done, progress,
token-containing strings) are likewise absent from the endpoint. -/
theorem C4_counterexample :
    RuntimeServer.parseLogType (some "err") = .info
    ∧ LogWatcher.normalizeType "err" = .error
    ∧ RuntimeServer.parseLogType (some "err") ≠ LogWatcher.normalizeType "err" := by
  refine ⟨by decide, by decide, by decide⟩

/-- Claim C4 as amended. RuntimeServer.parseLogType classifies by exact
match on the lowercased type (error to error, warn or warning to warn,
debug to debug, success to success, anything else or absent to info); it
agrees with LogWatcher.normalizeType on every input whose lowercase form
is one of info, warn, warning, error, debug, success — the vocabulary the
runtime client emits — and on an absent type both default to info, but
not on all inputs (e.g. err). -/
theorem C4_amended_agreement :
    (∀ s : String,
      jsToLower s ∈ (["info", "warn", "warning", "error", "debug", "success"] : List String) →
      RuntimeServer.parseLogType (some s) = LogWatcher.normalizeType s)
    ∧ RuntimeServer.parseLogType none = .info
    ∧ LogWatcher.normalizeType (typeFieldOf none none) = .info := by
  refine ⟨?_, by decide, by decide⟩
  intro s h
  simp only [List.mem_cons, List.mem_singleton, List.not_mem_nil, or_false] at h
  rcases h with h | h | h | h | h | h <;>
    simp only [RuntimeServer.parseLogType, LogWatcher.normalizeType, h] <;>
    decide

/-- Witness for the amended C4 at the concrete input WARNING: both
classifiers agree and map it to warn. -/
theorem C4_amended_agreement_witness :
    (jsToLower "WARNING"
        ∈ (["info", "warn", "warning", "error", "debug", "success"] : List String))
    ∧ RuntimeServer.parseLogType (some "WARNING") = LogWatcher.normalizeType "WARNING"
    ∧ RuntimeServer.parseLogType (some "WARNING") = .warn :=
  ⟨by decide, C4_amended_agreement.1 "WARNING" (by decide), by decide⟩

/-- Counterexample to claim C5 as stated: a valid-JSON single-record
request lacking both message and msg is not discarded by the Ingestion
Endpoint and does not receive a client-error response; handleLog stores
it with the coerced message and the route answers 200. -/
theorem C5_counterexample :
    (RuntimeServer.postLog "t0" 1000
        (some ⟨none, none, some "x", none, none⟩) []).1 = 200
    ∧ (RuntimeServer.postLog "t0" 1000
        (some ⟨none, none, some "x", none, none⟩) []).2
      = [⟨"t0", LogType.info, some "x", "[object Object]", none, none, none, none, none⟩]
    ∧ (RuntimeServer.postLog "t0" 1000
        (some ⟨none, none, some "x", none, none⟩) []).2 ≠ [] := by
  refine ⟨by decide, by decide, by decide⟩

/-- Claim C5 as amended. In the File Tail Reader a record whose message
and msg fields are both unusable (absent or empty) is discarded by
parseLine and never reaches the Store; the Ingestion Endpoint does not
discard such records: handleLog substitutes the string coercion of the
body, [object Object], as the message, adds the record to the Store, and
the route answers 200 rather than a client error. -/
theorem C5_amended_missing_message :
    (∀ (now : String) (p : ParsedLine),
      jsFalsy p.message = true → jsFalsy p.msg = true →
      LogWatcher.parseLine now p = none)
    ∧ (∀ (now : String) (maxSize : Nat) (d : RuntimeLogData)
        (logs : List LogEntry), d.message = none →
        (RuntimeServer.postLog now maxSize (some d) logs).1 = 200
        ∧ (RuntimeServer.postLog now maxSize (some d) logs).2
          = LogStore.add maxSize logs (RuntimeServer.entryOf now d)
        ∧ (RuntimeServer.entryOf now d).message = "[object Object]") := by
  constructor
  · intro now p h1 h2
    simp [LogWatcher.parseLine, h1, h2]
  · intro now maxSize d logs h
    refine ⟨rfl, rfl, ?_⟩
    simp [RuntimeServer.entryOf, h]

/-- Witness for the amended C5: a message-less line is dropped by the
reader, and a message-less ingestion request is stored with the coerced
message and answered 200. -/
theorem C5_amended_missing_message_witness :
    (jsFalsy (none : Option String) = true
      ∧ LogWatcher.parseLine "t1"
          ⟨none, none, none, none, none, none, none, none, none, none,
            none, none, none, none, none⟩ = none)
    ∧ ((RuntimeServer.postLog "t1" 1000
          (some ⟨some "info", none, none, none, none⟩) []).1 = 200
      ∧ (RuntimeServer.postLog "t1" 1000
          (some ⟨some "info", none, none, none, none⟩) []).2
        = LogStore.add 1000 []
            (RuntimeServer.entryOf "t1" ⟨some "info", none, none, none, none⟩)
      ∧ (RuntimeServer.entryOf "t1"
          ⟨some "info", none, none, none, none⟩).message = "[object Object]") :=
  ⟨⟨by decide,
    C5_amended_missing_message.1 "t1"
      ⟨none, none, none, none, none, none, none, none, none, none,
        none, none, none, none, none⟩ (by decide) (by decide)⟩,
    C5_amended_missing_message.2 "t1" 1000
      ⟨some "info", none, none, none, none⟩ [] (by decide)⟩

/-- Counterexample to claim C6 as stated: a valid-JSON batch body whose
logs field is the string abc is answered 200 (with count 3, the length of
the string), not 400; no record reaches the Store. -/
theorem C6_counterexample :
    (RuntimeServer.postLogs "t0" 1000 (some ⟨LogsField.strv "abc"⟩)
        [mkE "old"]).1 = (200, 3)
    ∧ (RuntimeServer.postLogs "t0" 1000 (some ⟨LogsField.strv "abc"⟩)
        [mkE "old"]).1.1 ≠ 400
    ∧ (RuntimeServer.postLogs "t0" 1000 (some ⟨LogsField.strv "abc"⟩)
        [mkE "old"]).2 = [mkE "old"] := by
  refine ⟨by decide, by decide, by decide⟩

/-- Claim C6 as amended. For every POST /logs request whose body is valid
JSON (a parsed object) but whose logs field is not a sequence, the route
leaves the Store untouched, but it responds 200 with success and
count = logs?.length ?? 0; a 400 client-error response is produced only
when the body fails JSON parsing (the route then also leaves the Store
untouched). -/
theorem C6_amended_batch_rejection :
    (∀ (now : String) (maxSize : Nat) (b : BatchBody) (logs : List LogEntry),
      (∀ l, b.logs ≠ LogsField.arr l) →
      (RuntimeServer.postLogs now maxSize (some b) logs).1.1 = 200
      ∧ (RuntimeServer.postLogs now maxSize (some b) logs).1.2
        = (LogsField.lengthOpt b.logs).getD 0
      ∧ (RuntimeServer.postLogs now maxSize (some b) logs).2 = logs)
    ∧ (∀ (now : String) (maxSize : Nat) (logs : List LogEntry),
      (RuntimeServer.postLogs now maxSize none logs).1.1 = 400
      ∧ (RuntimeServer.postLogs now maxSize none logs).2 = logs) := by
  constructor
  · intro now maxSize b logs h
    rcases b with ⟨lf⟩
    cases lf with
    | absent => exact ⟨rfl, rfl, rfl⟩
    | arr l => exact absurd rfl (h l)
    | strv s => exact ⟨rfl, rfl, rfl⟩
    | numv n => exact ⟨rfl, rfl, rfl⟩
  · intro now maxSize logs
    exact ⟨rfl, rfl⟩

/-- Witness for the amended C6: the numeric logs field 7 is answered 200
with count 0 and the store keeps exactly its previous single record. -/
theorem C6_amended_batch_rejection_witness :
    (∀ l, LogsField.numv 7 ≠ LogsField.arr l)
    ∧ ((RuntimeServer.postLogs "t2" 1000 (some ⟨LogsField.numv 7⟩)
          [mkE "keep"]).1.1 = 200
      ∧ (RuntimeServer.postLogs "t2" 1000 (some ⟨LogsField.numv 7⟩)
          [mkE "keep"]).1.2 = (LogsField.lengthOpt (LogsField.numv 7)).getD 0
      ∧ (RuntimeServer.postLogs "t2" 1000 (some ⟨LogsField.numv 7⟩)
          [mkE "keep"]).2 = [mkE "keep"]) :=
  ⟨(fun _ h => nomatch h),
    C6_amended_batch_rejection.1 "t2" 1000 ⟨LogsField.numv 7⟩ [mkE "keep"]
      (fun _ h => nomatch h)⟩

theorem rtTagStage_eq (tag : Option String) (l : List LogEntry) :
    rtTagStage tag l = l.filter (fun log => rtTagPred tag log) := by
  cases tag with
  | none => simp [rtTagStage, rtTagPred]
  | some t =>
    by_cases h : t.isEmpty
    · simp [rtTagStage, rtTagPred, h]
    · simp [rtTagStage, rtTagPred, h]

theorem rtTypesStage_eq (ts : Option (List LogType)) (l : List LogEntry) :
    rtTypesStage ts l = l.filter (fun log => rtTypesPred ts log) := by
  cases ts with
  | none => simp [rtTypesStage, rtTypesPred]
  | some tl => simp [rtTypesStage, rtTypesPred]

theorem rtSearchStage_eq (search : Option String) (l : List LogEntry) :
    rtSearchStage search l = l.filter (fun log => rtSearchPred search log) := by
  cases search with
  | none => simp [rtSearchStage, rtSearchPred]
  | some s =>
    by_cases h : s.isEmpty
    · simp [rtSearchStage, rtSearchPred, h]
    · simp [rtSearchStage, rtSearchPred, h]

theorem LogStore.get_only_limit (dv : String → Option Int)
    (logs : List LogEntry) (n : Int) (hn : 0 < n) :
    LogStore.get dv logs ⟨none, some n, none, none, none⟩
      = takeLast n.toNat logs := by
  simp [LogStore.get, typesStage, sinceStage, issuerStage, searchStage,
    applyLimit, hn]

set_option maxRecDepth 4000 in
/-- The runtime-logs handler equals one filter by the conjunction of the
runtime classification and the set filters, over the most recent 1000
stored records, followed by slice(0, limit with default 50). -/
theorem getRuntimeLogs_eq (dv : String → Option Int)
    (logs : List LogEntry) (args : RuntimeArgs) :
    getRuntimeLogs dv logs args
      = jsSliceTo (args.limit.getD 50)
          ((takeLast 1000 logs).filter (fun log => runtimeMatches args log)) := by
  unfold getRuntimeLogs
  rw [LogStore.get_only_limit dv logs 1000 (by norm_num)]
  have h1000 : (1000 : Int).toNat = 1000 := rfl
  rw [h1000]
  dsimp only
  rw [rtTagStage_eq, rtTypesStage_eq, rtSearchStage_eq,
    List.filter_filter, List.filter_filter, List.filter_filter]
  refine congrArg (jsSliceTo (args.limit.getD 50)) (List.filter_congr ?_)
  intro a _
  simp only [runtimeMatches]
  ac_rfl

/-- Counterexample to claim C7 as stated: on a store holding two runtime
records a then b, the runtime-logs operation with limit 1 returns the
oldest match a — slice(0, 1) keeps a prefix — not the most recent match b
that the claim promises. -/
theorem C7_counterexample :
    getRuntimeLogs (fun _ => some 0) [mkE "a", mkE "b"]
        ⟨some 1, none, none, none⟩ = [mkE "a"]
    ∧ getRuntimeLogs (fun _ => some 0) [mkE "a", mkE "b"]
        ⟨some 1, none, none, none⟩ ≠ [mkE "b"] := by
  refine ⟨by decide, by decide⟩

/-- Claim C7 as amended. The runtime-logs operation filters the most
recent 1000 stored records by the conjunction of the runtime
classification (issuer not one of webpack, repack, watcher, an absent
issuer comparing as the empty string) and any tag, types and search
filters, preserving arrival order, and then keeps only the first
(oldest) limit matches — a prefix, not a suffix — where limit defaults
to 50 when not given. -/
theorem C7_amended_runtime_query (dv : String → Option Int)
    (logs : List LogEntry) (args : RuntimeArgs)
    (h : 0 ≤ args.limit.getD 50) :
    getRuntimeLogs dv logs args
      = ((takeLast 1000 logs).filter
          (fun log => runtimeMatches args log)).take (args.limit.getD 50).toNat := by
  rw [getRuntimeLogs_eq]
  simp [jsSliceTo, h]

/-- Witness for the amended C7 on a concrete two-record store with
limit 1: the prefix of length 1 of the matches. -/
theorem C7_amended_runtime_query_witness :
    (0 : Int) ≤ (some (1 : Int)).getD 50
    ∧ getRuntimeLogs (fun _ => some 0) [mkE "a", mkE "b"]
        ⟨some 1, none, none, none⟩
      = ((takeLast 1000 [mkE "a", mkE "b"]).filter
          (fun log => runtimeMatches ⟨some 1, none, none, none⟩ log)).take
          ((some (1 : Int)).getD 50).toNat :=
  ⟨by decide,
    C7_amended_runtime_query (fun _ => some 0) [mkE "a", mkE "b"]
      ⟨some 1, none, none, none⟩ (by decide)⟩

/-- Claim C8. Truncation recovery: whenever the current file size is
smaller than the last recorded read offset, the cycle behaves exactly as
a read from offset 0 — the entire current content is treated as new — and
when the file is non-empty the cycle ingests all of it, leaving the
offset at end-of-file; no error is raised (the function is total). -/
theorem C8_truncation_recovery (content : List Char) (pos : Nat)
    (h : content.length < pos) :
    LogWatcher.readNewContent (some content) pos
      = LogWatcher.readNewContent (some content) 0
    ∧ (0 < content.length →
        (LogWatcher.readNewContent (some content) pos).1 = content.length
        ∧ (LogWatcher.readNewContent (some content) pos).2
          = (splitNl content).filter (fun line => !(line.all isWsChar))) := by
  constructor
  · simp [LogWatcher.readNewContent, h]
  · intro hlen
    have hne : ¬(content.length = 0) := by omega
    simp [LogWatcher.readNewContent, h, hne]

/-- Witness for C8 at the spec scenario: a file read to offset 500 is
replaced by a 100-character file; the next cycle reads the whole new
content from offset 0 and advances the offset to 100. -/
theorem C8_truncation_recovery_witness :
    (List.replicate 100 'a').length < 500
    ∧ (LogWatcher.readNewContent (some (List.replicate 100 'a')) 500
        = LogWatcher.readNewContent (some (List.replicate 100 'a')) 0
      ∧ (0 < (List.replicate 100 'a').length →
          (LogWatcher.readNewContent (some (List.replicate 100 'a')) 500).1
            = (List.replicate 100 'a').length
          ∧ (LogWatcher.readNewContent (some (List.replicate 100 'a')) 500).2
            = (splitNl (List.replicate 100 'a')).filter
                (fun line => !(line.all isWsChar)))) :=
  ⟨by decide, C8_truncation_recovery (List.replicate 100 'a') 500 (by decide)⟩

theorem RuntimeServer.bindFrom_spec (busy : Nat → Bool) :
    ∀ (fuel p q : Nat), RuntimeServer.bindFrom busy p fuel = some q →
      p ≤ q ∧ busy q = false ∧ ∀ r, p ≤ r → r < q → busy r = true := by
  intro fuel
  induction fuel with
  | zero => intro p q h; simp [RuntimeServer.bindFrom] at h
  | succ n ih =>
    intro p q h
    simp only [RuntimeServer.bindFrom] at h
    by_cases hb : busy p = true
    · rw [if_pos hb] at h
      obtain ⟨h1, h2, h3⟩ := ih (p + 1) q h
      refine ⟨by omega, h2, ?_⟩
      intro r hr1 hr2
      rcases Nat.eq_or_lt_of_le hr1 with he | hl
      · rw [← he]; exact hb
      · exact h3 r (by omega) hr2
    · rw [if_neg hb] at h
      have hq : p = q := by injection h
      subst hq
      refine ⟨Nat.le_refl p, ?_, ?_⟩
      · simpa using hb
      · intro r hr1 hr2; omega

/-- Claim C9. Port fallback: if the configured port p is busy and the
retry loop terminates on some port q, then q is strictly greater than p,
q is free, every port from p up to q was busy (q is the first free port
at or above p, reached by incrementing), and the status snapshot reports
exactly that effective port q. -/
theorem C9_port_fallback (busy : Nat → Bool) (p fuel q : Nat)
    (hbusy : busy p = true)
    (hbind : RuntimeServer.bindFrom busy p fuel = some q) :
    p < q ∧ busy q = false
    ∧ (∀ r, p ≤ r → r < q → busy r = true)
    ∧ ∀ (dv : String → Option Int) (w : Bool) (fp : String) (fe : Bool)
        (logs : List LogEntry),
        (getStatus dv w fp fe logs q).runtimeServerPort = q := by
  obtain ⟨h1, h2, h3⟩ := RuntimeServer.bindFrom_spec busy fuel p q hbind
  have hne : p ≠ q := by
    intro he
    rw [← he, hbusy] at h2
    exact Bool.noConfusion h2
  exact ⟨by omega, h2, h3, fun dv w fp fe logs => rfl⟩

/-- Witness for C9: with 9090 taken, startup lands on 9091, the first
free port above it, and the status snapshot reports 9091. -/
theorem C9_port_fallback_witness :
    busyW 9090 = true
    ∧ RuntimeServer.bindFrom busyW 9090 10 = some 9091
    ∧ 9090 < 9091
    ∧ busyW 9091 = false
    ∧ (getStatus (fun _ => some 0) true "f" true [] 9091).runtimeServerPort = 9091 :=
  ⟨by decide, by decide,
    (C9_port_fallback busyW 9090 10 9091 (by decide) (by decide)).1,
    (C9_port_fallback busyW 9090 10 9091 (by decide) (by decide)).2.1,
    (C9_port_fallback busyW 9090 10 9091 (by decide) (by decide)).2.2.2
      (fun _ => some 0) true "f" true []⟩

/-- Counterexample to claim C10 as stated: an absent-issuer record stored
after 50 other runtime records is not included in the runtime-logs output
when no tag, types or search filter is set — the default limit of 50,
applied as a prefix, cuts it off. -/
theorem C10_counterexample :
    eB.issuer = none
    ∧ eB ∈ store51
    ∧ eB ∉ getRuntimeLogs (fun _ => some 0) store51 ⟨none, none, none, none⟩ := by
  refine ⟨by decide, by decide, by decide⟩

/-- Claim C10 as amended. A stored record with an absent issuer is
classified as a runtime record: the build/runtime partition compares the
absent issuer as the empty string, which is not a reserved build tag, so
the record satisfies the runtime-logs predicate and never the build one;
the runtime-logs operation with no tag, types or search filter includes
it whenever the relevant window allows (here: at most 50 stored records,
within the caps of 1000 for the query and the default prefix limit 50);
and the status snapshot, over a store within its 10000-record cap, counts
exactly the non-reserved-issuer records in runtimeLogCount and exactly
the reserved ones in buildLogCount, so an absent-issuer record is counted
in the former and never in the latter. -/
theorem C10_amended_absent_issuer :
    (∀ log : LogEntry, log.issuer = none →
      isBuildLog log = false
      ∧ runtimeMatches ⟨none, none, none, none⟩ log = true)
    ∧ (∀ (dv : String → Option Int) (logs : List LogEntry),
        logs.length ≤ 50 →
        ∀ log, log ∈ logs → log.issuer = none →
          log ∈ getRuntimeLogs dv logs ⟨none, none, none, none⟩)
    ∧ (∀ (dv : String → Option Int) (w : Bool) (fp : String) (fe : Bool)
        (logs : List LogEntry) (port : Nat),
        logs.length ≤ 10000 →
        (getStatus dv w fp fe logs port).runtimeLogCount
          = (logs.filter (fun log => !(isBuildLog log))).length
        ∧ (getStatus dv w fp fe logs port).buildLogCount
          = (logs.filter (fun log => isBuildLog log)).length) := by
  have hrt : ∀ log : LogEntry, log.issuer = none →
      isBuildLog log = false := by
    intro log h
    unfold isBuildLog
    rw [h]
    decide
  have hmatch : ∀ log : LogEntry, log.issuer = none →
      runtimeMatches ⟨none, none, none, none⟩ log = true := by
    intro log h
    simp [runtimeMatches, rtTagPred, rtTypesPred, rtSearchPred, hrt log h]
  refine ⟨fun log h => ⟨hrt log h, hmatch log h⟩, ?_, ?_⟩
  · intro dv logs hlen log hmem hiss
    rw [getRuntimeLogs_eq]
    have h1 : takeLast 1000 logs = logs := takeLast_all (by omega)
    rw [h1]
    have hmem2 : log ∈ logs.filter
        (fun log => runtimeMatches ⟨none, none, none, none⟩ log) :=
      List.mem_filter.mpr ⟨hmem, hmatch log hiss⟩
    have hlen2 : (logs.filter
        (fun log => runtimeMatches ⟨none, none, none, none⟩ log)).length ≤ 50 :=
      le_trans (List.length_filter_le _ _) hlen
    have hslice : jsSliceTo ((none : Option Int).getD 50)
        (logs.filter (fun log => runtimeMatches ⟨none, none, none, none⟩ log))
        = logs.filter (fun log => runtimeMatches ⟨none, none, none, none⟩ log) := by
      simp only [jsSliceTo, Option.getD]
      rw [if_pos (by norm_num)]
      exact List.take_of_length_le (by simpa using hlen2)
    rw [hslice]
    exact hmem2
  · intro dv w fp fe logs port hlen
    simp only [getStatus]
    rw [LogStore.get_only_limit dv logs 10000 (by norm_num)]
    have h10000 : (10000 : Int).toNat = 10000 := rfl
    rw [h10000, takeLast_all (by omega)]
    exact ⟨rfl, rfl⟩

/-- Witness for the amended C10 on the one-record store holding only the
absent-issuer record: it is classified runtime, included in the
runtime-logs output, and counted as 1 runtime log and 0 build logs. -/
theorem C10_amended_absent_issuer_witness :
    (eB.issuer = none
      ∧ isBuildLog eB = false
      ∧ runtimeMatches ⟨none, none, none, none⟩ eB = true)
    ∧ ([eB].length ≤ 50 ∧ eB ∈ [eB]
      ∧ eB ∈ getRuntimeLogs (fun _ => some 0) [eB] ⟨none, none, none, none⟩)
    ∧ ([eB].length ≤ 10000
      ∧ (getStatus (fun _ => some 0) true "f" true [eB] 9090).runtimeLogCount
        = ([eB].filter (fun log => !(isBuildLog log))).length
      ∧ (getStatus (fun _ => some 0) true "f" true [eB] 9090).buildLogCount
        = ([eB].filter (fun log => isBuildLog log)).length) :=
  ⟨⟨by decide, (C10_amended_absent_issuer.1 eB (by decide)).1,
      (C10_amended_absent_issuer.1 eB (by decide)).2⟩,
    ⟨by decide, by decide,
      C10_amended_absent_issuer.2.1 (fun _ => some 0) [eB] (by decide)
        eB (by decide) (by decide)⟩,
    ⟨by decide,
      (C10_amended_absent_issuer.2.2 (fun _ => some 0) true "f" true [eB] 9090
        (by decide)).1,
      (C10_amended_absent_issuer.2.2 (fun _ => some 0) true "f" true [eB] 9090
        (by decide)).2⟩⟩
